import Mathlib

/-!
Verification development for the expression-evaluation core of an XPath 1.0
engine (`src/expression.rs`).  The expression variants, the evaluator, the
predicate engine, and the error taxonomy are translated from the source file.
The value model, its three coercions, the nodeset/document-order operations and
the evaluation-context factories live outside the provided source and are
modelled from the specification where noted.

IEEE-754 doubles are modelled by `XNum`: NaN, the two infinities, and finite
values represented exactly as rationals.  Every finite double is a rational, and
all operations the development exercises (equality, negation, the Rust
`as usize` cast, lexical parsing of decimal strings) are exact on that model.
-/

namespace SxdXpath

/-- A document node, identified by an opaque handle.  The node type itself is
supplied by the external XML document model. -/
structure Node where
  id : Nat
deriving DecidableEq, Repr

/-- Modelled from the spec: the narrow interface the core consumes from the
XML document model — per-node string-values, a document-order key (document
order is a total order on nodes, represented by a numeric key), and the root
node reachable from any node of the document. -/
structure DocModel where
  stringValue : Node → String
  orderKey : Node → Nat
  root : Node

/-- Model of an IEEE-754 double: NaN, infinities (`inf true` is negative
infinity), or an exact finite value. -/
inductive XNum where
  | nan : XNum
  | inf (neg : Bool) : XNum
  | fin (q : ℚ) : XNum
deriving DecidableEq, Repr

namespace XNum

/-- IEEE-754 `==` on doubles: NaN compares unequal to everything, including
itself; finite values and infinities compare structurally. -/
def feq : XNum → XNum → Bool
  | fin a, fin b => a == b
  | inf a, inf b => a == b
  | _, _ => false

/-- IEEE-754 negation. -/
def negate : XNum → XNum
  | nan => nan
  | inf b => inf !b
  | fin q => fin (-q)

/-- The Rust `as usize` cast from `f64` (saturating, truncating toward zero):
NaN and every value at most zero map to 0, positive values are truncated, and
values beyond `usize::MAX` saturate. -/
def asUsize : XNum → Nat
  | nan => 0
  | inf b => if b then 0 else 2 ^ 64 - 1
  | fin q => if q ≤ 0 then 0 else min ⌊q⌋.toNat (2 ^ 64 - 1)

/-- A number is negative when it is a finite value below zero or negative
infinity; NaN is not negative. -/
def isNegative : XNum → Bool
  | nan => false
  | inf b => b
  | fin q => q < 0

end XNum

/-- Accumulate a run of decimal digit characters into a natural number. -/
def digitsVal (ds : List Char) : Nat :=
  ds.foldl (fun a c => 10 * a + (c.toNat - 48)) 0

/-- Assemble a parsed decimal literal — integer part plus fractional part
scaled by the number of fractional digits, negated when signed.  The value is
`ipart + fpart / 10 ^ fdigits`, built with `Rat.divInt`. -/
def assembleDecimal (neg : Bool) (ipart fpart fdigits : Nat) : ℚ :=
  let m : ℚ := Rat.divInt (ipart * 10 ^ fdigits + fpart) (10 ^ fdigits)
  if neg then -m else m

/-- XML whitespace characters. -/
def isXmlSpace (c : Char) : Bool :=
  c == ' ' || c == '\t' || c == '\n' || c == '\r'

/-- Modelled from the spec: the XPath lexical double parse used by the
`number()` coercion of a string.  Leading and trailing whitespace is allowed,
then an optional minus sign, then `Digits ('.' Digits?)? | '.' Digits`; any
other input yields NaN. -/
def stringToNumber (s : String) : XNum :=
  let cs := s.toList.dropWhile isXmlSpace
  let body := (cs.reverse.dropWhile isXmlSpace).reverse
  let signed : Bool × List Char :=
    match body with
    | '-' :: rest => (true, rest)
    | _ => (false, body)
  let neg := signed.1
  let digits := signed.2
  let ip := digits.takeWhile Char.isDigit
  let rest := digits.dropWhile Char.isDigit
  match rest with
  | [] =>
    if ip.isEmpty then .nan
    else .fin (assembleDecimal neg (digitsVal ip) 0 0)
  | '.' :: fr =>
    if fr.all Char.isDigit && !(ip.isEmpty && fr.isEmpty) then
      .fin (assembleDecimal neg (digitsVal ip) (digitsVal fr) fr.length)
    else .nan
  | _ => .nan

/-- Decimal digits of a fractional part in `[0, 1)`, produced most-significant
first; the first argument bounds the number of digits emitted. -/
def fracDigitChars : Nat → ℚ → List Char
  | 0, _ => []
  | n + 1, q =>
    if q == 0 then []
    else
      let q10 := q * 10
      Char.ofNat (48 + ⌊q10⌋.toNat) :: fracDigitChars n (q10 - ⌊q10⌋)

/-- Modelled from the spec: XPath number-to-string.  Integers print without a
decimal point, NaN prints as `NaN`, the infinities as `Infinity` and
`-Infinity`; other finite values print sign, integer part, and fractional
digits. -/
def XNum.toDisplay : XNum → String
  | .nan => "NaN"
  | .inf b => if b then "-Infinity" else "Infinity"
  | .fin q =>
    let sign := if q < 0 then "-" else ""
    let a := |q|
    if a.den == 1 then sign ++ toString a.num.toNat
    else sign ++ toString ⌊a⌋.toNat ++ "." ++ String.mk (fracDigitChars 32 (a - ⌊a⌋))

/-- The XPath value union: nodeset, string, number, or boolean. -/
inductive Value where
  | nodeset (ns : List Node)
  | str (s : String)
  | num (n : XNum)
  | bool (b : Bool)
deriving DecidableEq, Repr

/-- Modelled from the spec: document-order projection of a nodeset, sorting by
the document model's order key. -/
def documentOrder (d : DocModel) (ns : List Node) : List Node :=
  ns.insertionSort (fun a b => d.orderKey a ≤ d.orderKey b)

namespace Value

/-- Modelled from the spec: the `boolean()` coercion — a nodeset is true iff
non-empty, a string iff non-empty, a number iff neither zero nor NaN, a
boolean is itself. -/
def asBoolean : Value → Bool
  | nodeset ns => !ns.isEmpty
  | str s => !s.isEmpty
  | num .nan => false
  | num (.inf _) => true
  | num (.fin q) => q != 0
  | bool b => b

/-- Modelled from the spec: the `string()` coercion — a nodeset yields the
string-value of its first node in document order (empty if the set is empty), a
number its XPath rendering, a boolean `true`/`false`, a string itself. -/
def asString (v : Value) (d : DocModel) : String :=
  match v with
  | nodeset ns =>
    match documentOrder d ns with
    | [] => ""
    | n :: _ => d.stringValue n
  | str s => s
  | num n => n.toDisplay
  | bool b => if b then "true" else "false"

/-- Modelled from the spec: the `number()` coercion — a string is parsed by the
XPath lexical rules, a boolean maps to 1 or 0, a nodeset is its string-value
parsed, a number is itself. -/
def asNumber (v : Value) (d : DocModel) : XNum :=
  match v with
  | nodeset ns => stringToNumber (asString (nodeset ns) d)
  | str s => stringToNumber s
  | num n => n
  | bool b => if b then .fin 1 else .fin 0

/-- Kind test: is this value a nodeset? -/
def isNodeset : Value → Bool
  | nodeset _ => true
  | _ => false

/-- Kind test: is this value a boolean? -/
def isBool : Value → Bool
  | bool _ => true
  | _ => false

/-- Kind test: is this value a number? -/
def isNum : Value → Bool
  | num _ => true
  | _ => false

end Value

/-- A name as produced by the parser: an optional namespace prefix and a local
part. -/
structure PrefixedName where
  pfx : Option String
  localPart : String
deriving DecidableEq, Repr

/-- A resolved qualified name: an optional namespace URI and a local part. -/
structure QName where
  uri : Option String
  localPart : String
deriving DecidableEq, Repr

/-- The error type of the external function collaborator; its payload is
opaque to the core and carried verbatim. -/
abbrev FnError := String

/-- The error taxonomy of the evaluation core, from `expression.rs`. -/
inductive Error where
  | NotANodeset
  | UnknownFunction (name : PrefixedName)
  | UnknownVariable (name : PrefixedName)
  | UnknownNamespace (pfx : String)
  | FunctionEvaluation (err : FnError)
deriving DecidableEq, Repr

/-- The per-node data of an evaluation context, as passed to the external
function collaborator. -/
structure CoreContext where
  node : Node
  position : Nat
  size : Nat
deriving DecidableEq, Repr

/-- An external XPath function: receives the per-node context data and the
evaluated arguments, and either produces a value or raises a function error. -/
def XFunction : Type :=
  CoreContext → List Value → Except FnError Value

/-- Modelled from the spec: the evaluation context — the document model, the
current node with its 1-based position and the size of the list being
filtered, and the variable, function and namespace bindings. -/
structure Evaluation where
  doc : DocModel
  node : Node
  position : Nat
  size : Nat
  vars : QName → Option Value
  functions : QName → Option XFunction
  namespaces : String → Option String

/-- Modelled from the spec: the `new_context_for(node)` factory — same
bindings, the given node, position 1 and size 1. -/
def newContextFor (ctx : Evaluation) (n : Node) : Evaluation :=
  { ctx with node := n, position := 1, size := 1 }

/-- Per-node contexts for a suffix of a node sequence, starting at the given
1-based position; the size is that of the whole sequence. -/
def contextsAux (ctx : Evaluation) (size : Nat) : Nat → List Node → List Evaluation
  | _, [] => []
  | i, n :: rest =>
    { ctx with node := n, position := i, size := size } :: contextsAux ctx size (i + 1) rest

/-- Modelled from the spec: the `new_contexts_for(nodes)` factory — one
context per node with positions 1..N and size N. -/
def newContextsFor (ctx : Evaluation) (nodes : List Node) : List Evaluation :=
  contextsAux ctx nodes.length 1 nodes

/-- Translation of `value_into_nodeset` from the source: a nodeset passes through, anything
else is `NotANodeset`. -/
def value_into_nodeset (v : Value) : Except Error (List Node) :=
  match v with
  | .nodeset ns => .ok ns
  | _ => .error .NotANodeset

/-- Translation of `value_into_ordered_nodes` from the source: a nodeset is projected to
document order, anything else is `NotANodeset`. -/
def value_into_ordered_nodes (d : DocModel) (v : Value) : Except Error (List Node) :=
  match v with
  | .nodeset ns => .ok (documentOrder d ns)
  | _ => .error .NotANodeset

/-- Modelled from the spec: `Nodeset::add_nodeset` — set union of two
duplicate-free node lists. -/
def addNodeset (l r : List Node) : List Node :=
  l ++ r.filter (fun n => !l.contains n)

/-- The string-values of a nodeset (`str_vals` in `Equal::boolean_evaluate`;
the source collects them into a hash set, which preserves exactly the set of
strings). -/
def strVals (d : DocModel) (ns : List Node) : List String :=
  ns.map d.stringValue

/-- The number coercions of the string-values of a nodeset (`num_vals` in
`Equal::boolean_evaluate`). -/
def numVals (d : DocModel) (ns : List Node) : List XNum :=
  ns.map (fun n => stringToNumber (d.stringValue n))

/-- The value comparison at the heart of `Equal::boolean_evaluate`, with the
source's dispatch order: nodeset/nodeset, nodeset/number, nodeset/string, then
any boolean, then any number, then strings. -/
def equalValues (d : DocModel) (lv rv : Value) : Bool :=
  match lv, rv with
  | .nodeset l, .nodeset r => (strVals d l).any (fun s => (strVals d r).contains s)
  | .nodeset ns, .num v | .num v, .nodeset ns => (numVals d ns).any (fun n => n.feq v)
  | .nodeset ns, .str s | .str s, .nodeset ns => (strVals d ns).contains s
  | .bool _, _ | _, .bool _ => lv.asBoolean == rv.asBoolean
  | .num _, _ | _, .num _ => (lv.asNumber d).feq (rv.asNumber d)
  | _, _ => lv.asString d == rv.asString d

/-- Translation of `Predicate::matches` applied to the already-evaluated predicate value: a
number keeps the node iff the context position equals its `as usize` cast;
anything else is coerced to boolean. -/
def predicateKeep (position : Nat) (v : Value) : Bool :=
  match v with
  | .num n => position == n.asUsize
  | _ => v.asBoolean

/-- An axis collaborator together with its node test: given the per-node child
context, produces the nodes it appends to the step's output sequence. -/
def Axis : Type :=
  Evaluation → List Node

mutual

/-- The expression tree of the core, one constructor per variant of
`expression.rs` (`Literal`, `Variable`, `And`, `Or`, `Equal`, `NotEqual`,
`Relational`, `Math`, `Negation`, `Union`, `Filter`, `Path`, `ContextNode`,
`RootNode`, `Function`).  `Relational` and `Math` store their `f64` operation
as a function, as the source structs do. -/
inductive Expr where
  | literal (v : Value)
  | variable_ (name : PrefixedName)
  | and_ (l r : Expr)
  | or_ (l r : Expr)
  | equal (l r : Expr)
  | notEqual (l r : Expr)
  | relational (op : XNum → XNum → Bool) (l r : Expr)
  | math (op : XNum → XNum → XNum) (l r : Expr)
  | negation (e : Expr)
  | union (l r : Expr)
  | filter (sel p : Expr)
  | path (start : Expr) (steps : List Step)
  | contextNode
  | rootNode
  | function (name : PrefixedName) (args : List Expr)

/-- A step of a path: the axis (with its node test) and the ordered list of
predicate expressions. -/
inductive Step where
  | mk (axis : Axis) (predicates : List Expr)

end

/-- Translation of `resolve_prefixed_name` from the source: no prefix means no namespace URI;
a prefix is looked up in the context, failing with `UnknownNamespace`. -/
def resolvePrefixedName (ctx : Evaluation) (name : PrefixedName) : Except Error QName :=
  match name.pfx with
  | none => .ok ⟨none, name.localPart⟩
  | some p =>
    match ctx.namespaces p with
    | none => .error (.UnknownNamespace p)
    | some uri => .ok ⟨some uri, name.localPart⟩

/-- Translation of `ParameterizedStep::apply_axis`: for every starting node, the axis emits
nodes into the shared output sequence under a fresh per-node context. -/
def applyAxis (ctx : Evaluation) (axis : Axis) (startingNodes : List Node) : List Node :=
  startingNodes.foldl (fun acc n => acc ++ axis (newContextFor ctx n)) []

mutual

/-- The evaluator: `Expression::evaluate` of each variant, translated arm by
arm from `expression.rs`. -/
def evaluate (ctx : Evaluation) : Expr → Except Error Value
  | .literal v => .ok v
  | .variable_ name =>
    match resolvePrefixedName ctx name with
    | .error e => .error e
    | .ok qn =>
      match ctx.vars qn with
      | some v => .ok v
      | none => .error (.UnknownVariable name)
  | .and_ l r =>
    match evaluate ctx l with
    | .error e => .error e
    | .ok lv =>
      if lv.asBoolean then (evaluate ctx r).map (fun rv => .bool rv.asBoolean)
      else .ok (.bool false)
  | .or_ l r =>
    match evaluate ctx l with
    | .error e => .error e
    | .ok lv =>
      if lv.asBoolean then .ok (.bool true)
      else (evaluate ctx r).map (fun rv => .bool rv.asBoolean)
  | .equal l r =>
    match evaluate ctx l with
    | .error e => .error e
    | .ok lv =>
      match evaluate ctx r with
      | .error e => .error e
      | .ok rv => .ok (.bool (equalValues ctx.doc lv rv))
  | .notEqual l r =>
    match evaluate ctx l with
    | .error e => .error e
    | .ok lv =>
      match evaluate ctx r with
      | .error e => .error e
      | .ok rv => .ok (.bool (!equalValues ctx.doc lv rv))
  | .relational op l r =>
    match evaluate ctx l with
    | .error e => .error e
    | .ok lv =>
      match evaluate ctx r with
      | .error e => .error e
      | .ok rv => .ok (.bool (op (lv.asNumber ctx.doc) (rv.asNumber ctx.doc)))
  | .math op l r =>
    match evaluate ctx l with
    | .error e => .error e
    | .ok lv =>
      match evaluate ctx r with
      | .error e => .error e
      | .ok rv => .ok (.num (op (lv.asNumber ctx.doc) (rv.asNumber ctx.doc)))
  | .negation e =>
    (evaluate ctx e).map (fun v => .num (v.asNumber ctx.doc).negate)
  | .union l r =>
    match evaluate ctx l with
    | .error e => .error e
    | .ok lv =>
      match value_into_nodeset lv with
      | .error e => .error e
      | .ok lns =>
        match evaluate ctx r with
        | .error e => .error e
        | .ok rv =>
          match value_into_nodeset rv with
          | .error e => .error e
          | .ok rns => .ok (.nodeset (addNodeset lns rns))
  | .filter sel p =>
    match evaluate ctx sel with
    | .error e => .error e
    | .ok v =>
      match value_into_ordered_nodes ctx.doc v with
      | .error e => .error e
      | .ok nodes =>
        match selectLoop p (newContextsFor ctx nodes) with
        | .error e => .error e
        | .ok kept => .ok (.nodeset kept)
  | .path start steps =>
    match evaluate ctx start with
    | .error e => .error e
    | .ok v =>
      match value_into_nodeset v with
      | .error e => .error e
      | .ok ns =>
        match stepsLoop ctx steps ns with
        | .error e => .error e
        | .ok res => .ok (.nodeset res)
  | .contextNode => .ok (.nodeset [ctx.node])
  | .rootNode => .ok (.nodeset [ctx.doc.root])
  | .function name args =>
    match resolvePrefixedName ctx name with
    | .error e => .error e
    | .ok qn =>
      match ctx.functions qn with
      | none => .error (.UnknownFunction name)
      | some f =>
        match evalArgs ctx args with
        | .error e => .error e
        | .ok argv =>
          match f ⟨ctx.node, ctx.position, ctx.size⟩ argv with
          | .error fe => .error (.FunctionEvaluation fe)
          | .ok v => .ok v
termination_by e => (sizeOf e, 0)

/-- Left-to-right eager evaluation of a function call's arguments, the
`collect` over argument expressions in `Function::evaluate`. -/
def evalArgs (ctx : Evaluation) : List Expr → Except Error (List Value)
  | [] => .ok []
  | a :: rest =>
    match evaluate ctx a with
    | .error e => .error e
    | .ok v =>
      match evalArgs ctx rest with
      | .error e => .error e
      | .ok vs => .ok (v :: vs)
termination_by args => (sizeOf args, 1)

/-- The loop of `Predicate::select`: evaluate the predicate under each
per-node context, keep the nodes whose result matches, stop at the first
error. -/
def selectLoop (p : Expr) : List Evaluation → Except Error (List Node)
  | [] => .ok []
  | c :: rest =>
    match evaluate c p with
    | .error e => .error e
    | .ok v =>
      if predicateKeep c.position v then
        match selectLoop p rest with
        | .error e => .error e
        | .ok ns => .ok (c.node :: ns)
      else selectLoop p rest
termination_by ctxs => (sizeOf p, 2 + ctxs.length)

/-- Translation of `ParameterizedStep::apply_predicates`: thread the node sequence through
each predicate in declaration order. -/
def predsLoop (ctx : Evaluation) : List Expr → List Node → Except Error (List Node)
  | [], nodes => .ok nodes
  | p :: rest, nodes =>
    match selectLoop p (newContextsFor ctx nodes) with
    | .error e => .error e
    | .ok nodes2 => predsLoop ctx rest nodes2
termination_by preds _ => (sizeOf preds, 1)

/-- Translation of `ParameterizedStep::evaluate`: apply the axis, then the predicates. -/
def stepEvaluate (ctx : Evaluation) (s : Step) (startingNodes : List Node) :
    Except Error (List Node) :=
  match s with
  | .mk axis preds => predsLoop ctx preds (applyAxis ctx axis startingNodes)
termination_by (sizeOf s, 1)

/-- The step loop of `Path::evaluate`: thread the nodeset through each step. -/
def stepsLoop (ctx : Evaluation) : List Step → List Node → Except Error (List Node)
  | [], nodes => .ok nodes
  | s :: rest, nodes =>
    match stepEvaluate ctx s nodes with
    | .error e => .error e
    | .ok nodes2 => stepsLoop ctx rest nodes2
termination_by steps _ => (sizeOf steps, 2)

end

/-- Translation of `Predicate::select`: build the per-node contexts for the input sequence
and run the selection loop. -/
def predicateSelect (ctx : Evaluation) (p : Expr) (nodes : List Node) :
    Except Error (List Node) :=
  selectLoop p (newContextsFor ctx nodes)

/-- The per-node keep decision of the predicate engine, as a function of the
derived context: the predicate's value interpreted by `predicateKeep`, with an
erroring evaluation counted as not kept. -/
def keptBy (p : Expr) (c : Evaluation) : Bool :=
  match evaluate c p with
  | .ok v => predicateKeep c.position v
  | .error _ => false

mutual

/-- An expression mentions none of the three variants whose evaluation demands
a nodeset operand (`Union`, `Filter`, `Path`). -/
def nodesetFree : Expr → Bool
  | .literal _ => true
  | .variable_ _ => true
  | .contextNode => true
  | .rootNode => true
  | .and_ l r | .or_ l r | .equal l r | .notEqual l r => nodesetFree l && nodesetFree r
  | .relational _ l r | .math _ l r => nodesetFree l && nodesetFree r
  | .negation e => nodesetFree e
  | .union _ _ => false
  | .filter _ _ => false
  | .path _ _ => false
  | .function _ args => nodesetFreeList args
termination_by e => (sizeOf e, 0)

/-- All expressions of a list are `nodesetFree`. -/
def nodesetFreeList : List Expr → Bool
  | [] => true
  | a :: rest => nodesetFree a && nodesetFreeList rest
termination_by args => (sizeOf args, 1)

end

/-- A two-element document for concrete evaluations: node ids order the
document, every node has an empty string-value. -/
def trivialDoc : DocModel :=
  { stringValue := fun _ => "", orderKey := fun n => n.id, root := ⟨0⟩ }

/-- A concrete evaluation context with empty bindings over `trivialDoc`. -/
def defaultEval : Evaluation :=
  { doc := trivialDoc, node := ⟨0⟩, position := 1, size := 1,
    vars := fun _ => none, functions := fun _ => none, namespaces := fun _ => none }

/-- First concrete node. -/
def node1 : Node := ⟨1⟩

/-- Second concrete node. -/
def node2 : Node := ⟨2⟩

/-- A stub external function that ignores its inputs and returns a fixed
string. -/
def stubFn : XFunction := fun _ _ => .ok (.str "the function ran")

/-- A stub external function that always raises a function error. -/
def failFn : XFunction := fun _ _ => .error "boom"

/-- A context binding `test-fn` to `stubFn` and `fail-fn` to `failFn`. -/
def fnEval : Evaluation :=
  { defaultEval with
    functions := fun qn =>
      if qn = ⟨none, "test-fn"⟩ then some stubFn
      else if qn = ⟨none, "fail-fn"⟩ then some failFn
      else none }

/-! ## Helper lemmas -/

/-- Every context produced by `contextsAux` carries a position at least the
starting position. -/
lemma contextsAux_position_le (ctx : Evaluation) (size : Nat) :
    ∀ (nodes : List Node) (i : Nat), ∀ c ∈ contextsAux ctx size i nodes, i ≤ c.position := by
  intro nodes
  induction nodes with
  | nil => simp [contextsAux]
  | cons n rest ih =>
    intro i c hc
    simp only [contextsAux, List.mem_cons] at hc
    rcases hc with rfl | hc
    · simp
    · exact le_trans (Nat.le_succ i) (ih (i + 1) c hc)

/-- Positions produced by `new_contexts_for` are at least 1. -/
lemma newContextsFor_position_pos (ctx : Evaluation) (nodes : List Node) :
    ∀ c ∈ newContextsFor ctx nodes, 1 ≤ c.position :=
  contextsAux_position_le ctx nodes.length nodes 1

/-- When the predicate evaluates without error under every per-node context,
the selection loop succeeds and keeps exactly the nodes of the contexts whose
evaluations match. -/
lemma selectLoop_ok (p : Expr) :
    ∀ ctxs : List Evaluation, (∀ c ∈ ctxs, ∃ v, evaluate c p = .ok v) →
      selectLoop p ctxs = .ok ((ctxs.filter (keptBy p)).map (fun c => c.node)) := by
  intro ctxs
  induction ctxs with
  | nil => intro _; simp [selectLoop]
  | cons c rest ih =>
    intro h
    obtain ⟨v, hv⟩ := h c (by simp)
    have hr := ih (fun c2 hc2 => h c2 (List.mem_cons_of_mem c hc2))
    have hk : keptBy p c = predicateKeep c.position v := by
      simp [keptBy, hv]
    by_cases hkeep : predicateKeep c.position v
    · simp [selectLoop, hv, hkeep, hr, hk]
    · simp [selectLoop, hv, hkeep, hr, hk]

/-! ## Claim C1 -/

/-- C1 counterexample: on the two-node input sequence, the predicate value
1.5 keeps the node at position 1 — its `as usize` truncation is 1 — so a
non-integer predicate number does not always keep no node. -/
theorem C1_counterexample :
    predicateSelect defaultEval (.literal (.num (.fin (3 / 2)))) [node1, node2] =
        .ok [node1] ∧
      (Except.ok [node1] : Except Error (List Node)) ≠ .ok [] := by
  constructor
  · simp [predicateSelect, newContextsFor, contextsAux, selectLoop, evaluate,
      predicateKeep, XNum.asUsize, defaultEval]
    norm_num
  · simp [node1]

/-- C1 (amended): in the predicate engine, when the predicate evaluates to a
number under every per-node context, selection succeeds and the node at
position `i` is kept iff `i` equals the `as usize` truncation of the number
produced at position `i` (so a non-integer value such as 1.5 keeps exactly the
node at position 1). -/
theorem C1_theorem (ctx : Evaluation) (p : Expr) (nodes : List Node)
    (h : ∀ c ∈ newContextsFor ctx nodes, ∃ v, evaluate c p = .ok (.num v)) :
    predicateSelect ctx p nodes =
        .ok (((newContextsFor ctx nodes).filter (keptBy p)).map (fun c => c.node)) ∧
      ∀ c ∈ newContextsFor ctx nodes, ∀ v, evaluate c p = .ok (.num v) →
        keptBy p c = (c.position == v.asUsize) := by
  constructor
  · exact selectLoop_ok p (newContextsFor ctx nodes)
      (fun c hc => (h c hc).elim (fun v hv => ⟨.num v, hv⟩))
  · intro c _ v hv
    simp [keptBy, hv, predicateKeep]

/-- C1 witness: a constant predicate 1 keeps exactly the single node at
position 1. -/
theorem C1_witness :
    predicateSelect defaultEval (.literal (.num (.fin 1))) [node1] = .ok [node1] := by
  have h := C1_theorem defaultEval (.literal (.num (.fin 1))) [node1]
    (by
      intro c hc
      exact ⟨.fin 1, by simp [evaluate]⟩)
  rw [h.1]
  simp [newContextsFor, contextsAux, keptBy, evaluate, predicateKeep, XNum.asUsize,
    defaultEval, List.filter_cons]
  norm_num

/-! ## Claim C10 -/

/-- C10: a NaN or negative predicate number keeps no node — the `as usize`
cast maps NaN and every negative value to 0, every per-node context position
is at least 1, and therefore the filtered result is empty. -/
theorem C10_theorem (ctx : Evaluation) (p : Expr) (nodes : List Node)
    (h : ∀ c ∈ newContextsFor ctx nodes,
      ∃ v, evaluate c p = .ok (.num v) ∧ (v = .nan ∨ v.isNegative = true)) :
    (∀ v : XNum, (v = .nan ∨ v.isNegative = true) → v.asUsize = 0) ∧
      (∀ c ∈ newContextsFor ctx nodes, 1 ≤ c.position) ∧
      predicateSelect ctx p nodes = .ok [] := by
  have hzero : ∀ v : XNum, (v = .nan ∨ v.isNegative = true) → v.asUsize = 0 := by
    intro v hv
    match v with
    | .nan => simp [XNum.asUsize]
    | .inf b =>
      rcases hv with h1 | h1
      · exact absurd h1 (by simp)
      · simp [XNum.isNegative] at h1
        simp [XNum.asUsize, h1]
    | .fin q =>
      rcases hv with h1 | h1
      · exact absurd h1 (by simp)
      · simp [XNum.isNegative] at h1
        simp [XNum.asUsize, le_of_lt h1]
  refine ⟨hzero, newContextsFor_position_pos ctx nodes, ?_⟩
  rw [predicateSelect, selectLoop_ok p (newContextsFor ctx nodes)
    (fun c hc => ((h c hc).elim (fun v hv => ⟨.num v, hv.1⟩)))]
  have hfilter : (newContextsFor ctx nodes).filter (keptBy p) = [] := by
    rw [List.filter_eq_nil_iff]
    intro c hc
    obtain ⟨v, hv, hneg⟩ := h c hc
    have hpos := newContextsFor_position_pos ctx nodes c hc
    simp [keptBy, hv, predicateKeep, hzero v hneg]
    omega
  rw [hfilter]
  simp

/-- C10 witness: a constant NaN predicate over one node yields the empty
selection. -/
theorem C10_witness :
    predicateSelect defaultEval (.literal (.num .nan)) [node1] = .ok [] :=
  (C10_theorem defaultEval (.literal (.num .nan)) [node1]
    (by
      intro c hc
      exact ⟨.nan, by simp [evaluate], Or.inl rfl⟩)).2.2

/-! ## Claim C2 -/

/-- C2: Equal's dispatch gives the boolean rule priority over the number rule
— when neither operand is a nodeset and at least one is a boolean, both sides
are coerced to boolean and compared; hence `false = "hello"` is false (boolean
coercion of a non-empty string being true) while `-42.0 = "-42.0"` compares
as numbers and is true. -/
theorem C2_theorem (d : DocModel) (lv rv : Value) (ctx : Evaluation)
    (h1 : lv.isNodeset = false) (h2 : rv.isNodeset = false)
    (h3 : lv.isBool = true ∨ rv.isBool = true) :
    equalValues d lv rv = (lv.asBoolean == rv.asBoolean) ∧
      evaluate ctx (.equal (.literal (.bool false)) (.literal (.str "hello"))) =
        .ok (.bool false) ∧
      Value.asBoolean (.str "hello") = true ∧
      evaluate ctx (.equal (.literal (.num (.fin (-42)))) (.literal (.str "-42.0"))) =
        .ok (.bool true) := by
  have hparse : stringToNumber "-42.0" = .fin (-42) := by decide
  refine ⟨?_, ?_, by decide, ?_⟩
  · cases lv <;> cases rv <;>
      simp_all [equalValues, Value.isNodeset, Value.isBool]
  · simp [evaluate, equalValues, Value.asBoolean]
    decide
  · simp [evaluate, equalValues, Value.asNumber, hparse, XNum.feq]

/-- C2 witness: the dispatch law applied to two boolean literals. -/
theorem C2_witness :
    evaluate defaultEval (.equal (.literal (.bool false)) (.literal (.str "hello"))) =
      .ok (.bool false) :=
  (C2_theorem trivialDoc (.bool true) (.bool true) defaultEval rfl rfl (Or.inl rfl)).2.1

/-! ## Claim C3 -/

/-- C3: `And` and `Or` short-circuit — when the left operand's boolean
coercion is false, `And` yields `Boolean(false)` for every right operand
(including ones whose evaluation fails, so the right operand is never
evaluated), and symmetrically `Or` yields `Boolean(true)` when the left
coerces to true; otherwise the result is the boolean coercion of the right
operand. -/
theorem C3_theorem (ctx : Evaluation) (L R : Expr) (v : Value)
    (h : evaluate ctx L = .ok v) :
    (v.asBoolean = false →
        evaluate ctx (.and_ L R) = .ok (.bool false) ∧
          evaluate ctx (.or_ L R) = (evaluate ctx R).map (fun rv => .bool rv.asBoolean)) ∧
      (v.asBoolean = true →
        evaluate ctx (.or_ L R) = .ok (.bool true) ∧
          evaluate ctx (.and_ L R) = (evaluate ctx R).map (fun rv => .bool rv.asBoolean)) := by
  constructor
  · intro hv
    constructor <;> simp [evaluate, h, hv]
  · intro hv
    constructor <;> simp [evaluate, h, hv]

/-- C3 witness: `And` with a false left literal returns false even though its
right operand is an unbound variable whose own evaluation fails. -/
theorem C3_witness :
    evaluate defaultEval
        (.and_ (.literal (.bool false)) (.variable_ ⟨none, "missing"⟩)) =
        .ok (.bool false) ∧
      evaluate defaultEval (.variable_ ⟨none, "missing"⟩) =
        .error (.UnknownVariable ⟨none, "missing"⟩) := by
  constructor
  · exact ((C3_theorem defaultEval (.literal (.bool false))
      (.variable_ ⟨none, "missing"⟩) (.bool false) (by simp [evaluate])).1
      (by simp [Value.asBoolean])).1
  · simp [evaluate, resolvePrefixedName, defaultEval]

/-! ## Claim C4 -/

/-- The document-order projection is sorted by the document-order key. -/
lemma documentOrder_sorted (d : DocModel) (ns : List Node) :
    (documentOrder d ns).Pairwise (fun a b => d.orderKey a ≤ d.orderKey b) := by
  haveI : IsTotal Node (fun a b => d.orderKey a ≤ d.orderKey b) :=
    ⟨fun a b => Nat.le_total _ _⟩
  haveI : IsTrans Node (fun a b => d.orderKey a ≤ d.orderKey b) :=
    ⟨fun a b c => Nat.le_trans⟩
  exact List.sorted_insertionSort _ ns

/-- C4: Filter evaluation first evaluates its child (propagating its error),
fails with `NotANodeset` when the child's value is not a nodeset, and
otherwise projects the nodeset to document order — a sequence sorted by the
document-order key — before applying its single predicate through the
predicate engine. -/
theorem C4_theorem (ctx : Evaluation) (sel p : Expr) :
    (∀ e, evaluate ctx sel = .error e → evaluate ctx (.filter sel p) = .error e) ∧
      (∀ v, evaluate ctx sel = .ok v → v.isNodeset = false →
        evaluate ctx (.filter sel p) = .error .NotANodeset) ∧
      (∀ ns, evaluate ctx sel = .ok (.nodeset ns) →
        evaluate ctx (.filter sel p) =
            (predicateSelect ctx p (documentOrder ctx.doc ns)).map Value.nodeset ∧
          (documentOrder ctx.doc ns).Pairwise
            (fun a b => ctx.doc.orderKey a ≤ ctx.doc.orderKey b)) := by
  refine ⟨?_, ?_, ?_⟩
  · intro e he
    simp [evaluate, he]
  · intro v hv hkind
    cases v <;> simp_all [evaluate, value_into_ordered_nodes, Value.isNodeset]
  · intro ns hns
    refine ⟨?_, documentOrder_sorted ctx.doc ns⟩
    have hstep :
        evaluate ctx (.filter sel p) =
          match selectLoop p (newContextsFor ctx (documentOrder ctx.doc ns)) with
          | .error e => .error e
          | .ok kept => .ok (.nodeset kept) := by
      simp [evaluate, hns, value_into_ordered_nodes]
    rw [hstep, predicateSelect]
    cases selectLoop p (newContextsFor ctx (documentOrder ctx.doc ns)) <;>
      simp [Except.map]

/-- C4 witness: filtering a literal two-node nodeset given out of document
order. -/
theorem C4_witness :
    evaluate defaultEval
        (.filter (.literal (.nodeset [node2, node1])) (.literal (.bool true))) =
        (predicateSelect defaultEval (.literal (.bool true))
          (documentOrder defaultEval.doc [node2, node1])).map Value.nodeset ∧
      (documentOrder defaultEval.doc [node2, node1]).Pairwise
        (fun a b => defaultEval.doc.orderKey a ≤ defaultEval.doc.orderKey b) :=
  (C4_theorem defaultEval (.literal (.nodeset [node2, node1]))
    (.literal (.bool true))).2.2 [node2, node1] (by simp [evaluate])

/-! ## Claim C5 -/

/-- C5: `NotEqual` evaluates to the boolean negation of `Equal` whenever
`Equal` evaluates successfully, and fails with exactly the errors `Equal`
fails with. -/
theorem C5_theorem (ctx : Evaluation) (l r : Expr) :
    (∀ b, evaluate ctx (.equal l r) = .ok (.bool b) →
        evaluate ctx (.notEqual l r) = .ok (.bool !b)) ∧
      ∀ e, evaluate ctx (.equal l r) = .error e ↔
        evaluate ctx (.notEqual l r) = .error e := by
  constructor
  · intro b hb
    cases hl : evaluate ctx l with
    | error e0 => simp [evaluate, hl] at hb
    | ok lv =>
      cases hr : evaluate ctx r with
      | error e0 => simp [evaluate, hl, hr] at hb
      | ok rv =>
        simp only [evaluate, hl, hr] at hb ⊢
        simp only [Except.ok.injEq, Value.bool.injEq] at hb
        rw [hb]
  · intro e
    cases hl : evaluate ctx l with
    | error e0 => simp [evaluate, hl]
    | ok lv =>
      cases hr : evaluate ctx r with
      | error e0 => simp [evaluate, hl, hr]
      | ok rv => simp [evaluate, hl, hr]

/-- C5 witness: `true != false` is the negation of `true = false`. -/
theorem C5_witness :
    evaluate defaultEval (.notEqual (.literal (.bool true)) (.literal (.bool false))) =
      .ok (.bool true) := by
  have h := (C5_theorem defaultEval (.literal (.bool true)) (.literal (.bool false))).1
    false (by simp [evaluate, equalValues, Value.asBoolean])
  simpa using h

/-! ## Claim C6 -/

/-- C6: a `Path` with an empty step list evaluates to exactly the nodeset its
start-point expression evaluates to. -/
theorem C6_theorem (ctx : Evaluation) (start : Expr) (ns : List Node)
    (h : evaluate ctx start = .ok (.nodeset ns)) :
    evaluate ctx (.path start []) = evaluate ctx start := by
  simp [evaluate, h, value_into_nodeset, stepsLoop]

/-- C6 witness: a literal one-node nodeset threaded through an empty path. -/
theorem C6_witness :
    evaluate defaultEval (.path (.literal (.nodeset [node1])) []) =
      evaluate defaultEval (.literal (.nodeset [node1])) :=
  C6_theorem defaultEval (.literal (.nodeset [node1])) [node1] (by simp [evaluate])

/-! ## Claim C8 -/

/-- C8: function-call evaluation resolves the name (failing with
`UnknownNamespace` when the prefix has no binding), looks the function up
(failing with `UnknownFunction` when absent), evaluates the arguments
left-to-right eagerly, and wraps any error the invoked function raises as
`FunctionEvaluation` carrying the inner error verbatim. -/
theorem C8_theorem (ctx : Evaluation) :
    (∀ (p lp : String) (args : List Expr), ctx.namespaces p = none →
        evaluate ctx (.function ⟨some p, lp⟩ args) = .error (.UnknownNamespace p)) ∧
      (∀ name args qn, resolvePrefixedName ctx name = .ok qn →
        ctx.functions qn = none →
        evaluate ctx (.function name args) = .error (.UnknownFunction name)) ∧
      (∀ name args qn f, resolvePrefixedName ctx name = .ok qn →
        ctx.functions qn = some f →
        evaluate ctx (.function name args) =
          match evalArgs ctx args with
          | .error e => .error e
          | .ok argv =>
            match f ⟨ctx.node, ctx.position, ctx.size⟩ argv with
            | .error fe => .error (.FunctionEvaluation fe)
            | .ok v => .ok v) ∧
      ∀ a rest, evalArgs ctx (a :: rest) =
        match evaluate ctx a with
        | .error e => .error e
        | .ok v => (evalArgs ctx rest).map (fun vs => v :: vs) := by
  refine ⟨?_, ?_, ?_, ?_⟩
  · intro p lp args hns
    simp [evaluate, resolvePrefixedName, hns]
  · intro name args qn hres hfn
    simp [evaluate, hres, hfn]
  · intro name args qn f hres hfn
    simp [evaluate, hres, hfn]
  · intro a rest
    cases ha : evaluate ctx a with
    | error e => simp [evalArgs, ha]
    | ok v =>
      cases hrest : evalArgs ctx rest with
      | error e => simp [evalArgs, ha, hrest, Except.map]
      | ok vs => simp [evalArgs, ha, hrest, Except.map]

/-- C8 witness: a bound function runs on its eagerly evaluated argument, an
unbound one reports `UnknownFunction`, and a failing one has its error
wrapped verbatim. -/
theorem C8_witness :
    evaluate fnEval (.function ⟨none, "test-fn"⟩ [.literal (.bool true)]) =
        .ok (.str "the function ran") ∧
      evaluate fnEval (.function ⟨none, "unknown-fn"⟩ []) =
        .error (.UnknownFunction ⟨none, "unknown-fn"⟩) ∧
      evaluate fnEval (.function ⟨none, "fail-fn"⟩ []) =
        .error (.FunctionEvaluation "boom") := by
  refine ⟨?_, ?_, ?_⟩
  · rw [(C8_theorem fnEval).2.2.1 ⟨none, "test-fn"⟩ [.literal (.bool true)]
      ⟨none, "test-fn"⟩ stubFn (by simp [resolvePrefixedName]) (by simp [fnEval])]
    simp [evalArgs, evaluate, stubFn]
  · exact (C8_theorem fnEval).2.1 ⟨none, "unknown-fn"⟩ [] ⟨none, "unknown-fn"⟩
      (by simp [resolvePrefixedName]) (by simp [fnEval])
  · rw [(C8_theorem fnEval).2.2.1 ⟨none, "fail-fn"⟩ [] ⟨none, "fail-fn"⟩ failFn
      (by simp [resolvePrefixedName]) (by simp [fnEval])]
    simp [evalArgs, failFn]

/-! ## Claim C9 -/

/-- C9: result-kind invariant — whenever evaluation succeeds, `And`, `Or`,
`Equal`, `NotEqual` and `Relational` return a Boolean, `Math` and `Negation`
return a Number, and `Path`, `Filter`, `Union`, `ContextNode` and `RootNode`
return a Nodeset, whatever the kinds of the operand values. -/
theorem C9_theorem (ctx : Evaluation) :
    (∀ l r v, evaluate ctx (.and_ l r) = .ok v → v.isBool = true) ∧
      (∀ l r v, evaluate ctx (.or_ l r) = .ok v → v.isBool = true) ∧
      (∀ l r v, evaluate ctx (.equal l r) = .ok v → v.isBool = true) ∧
      (∀ l r v, evaluate ctx (.notEqual l r) = .ok v → v.isBool = true) ∧
      (∀ op l r v, evaluate ctx (.relational op l r) = .ok v → v.isBool = true) ∧
      (∀ op l r v, evaluate ctx (.math op l r) = .ok v → v.isNum = true) ∧
      (∀ e v, evaluate ctx (.negation e) = .ok v → v.isNum = true) ∧
      (∀ start steps v, evaluate ctx (.path start steps) = .ok v →
        v.isNodeset = true) ∧
      (∀ sel p v, evaluate ctx (.filter sel p) = .ok v → v.isNodeset = true) ∧
      (∀ l r v, evaluate ctx (.union l r) = .ok v → v.isNodeset = true) ∧
      (∀ v, evaluate ctx .contextNode = .ok v → v.isNodeset = true) ∧
      (∀ v, evaluate ctx .rootNode = .ok v → v.isNodeset = true) := by
  refine ⟨?_, ?_, ?_, ?_, ?_, ?_, ?_, ?_, ?_, ?_, ?_, ?_⟩ <;>
    intros <;>
    rename_i h <;>
    simp only [evaluate, Except.map] at h <;>
    repeat' split at h
  all_goals try simp_all [Value.isBool, Value.isNum, Value.isNodeset]
  all_goals subst h
  all_goals rfl

/-- C9 witness: `ContextNode` produces a nodeset. -/
theorem C9_witness : Value.isNodeset (.nodeset [defaultEval.node]) = true :=
  (C9_theorem defaultEval).2.2.2.2.2.2.2.2.2.2.1 (.nodeset [defaultEval.node])
    (by simp [evaluate])

/-! ## Claim C7 -/

/-- Errors of name resolution are always `UnknownNamespace`. -/
lemma resolvePrefixedName_error (ctx : Evaluation) (name : PrefixedName) (er : Error)
    (h : resolvePrefixedName ctx name = .error er) : ∃ p, er = .UnknownNamespace p := by
  obtain ⟨pfx, lp⟩ := name
  cases pfx with
  | none => simp [resolvePrefixedName] at h
  | some p =>
    cases hn : ctx.namespaces p with
    | none =>
      refine ⟨p, ?_⟩
      simp [resolvePrefixedName, hn] at h
      exact h.symm
    | some uri => simp [resolvePrefixedName, hn] at h

/-- A value of another kind than nodeset is rejected by
`value_into_nodeset`. -/
lemma value_into_nodeset_not (v : Value) (h : v.isNodeset = false) :
    value_into_nodeset v = .error .NotANodeset := by
  cases v <;> simp_all [value_into_nodeset, Value.isNodeset]

/-- A value of another kind than nodeset is rejected by
`value_into_ordered_nodes`. -/
lemma value_into_ordered_nodes_not (d : DocModel) (v : Value) (h : v.isNodeset = false) :
    value_into_ordered_nodes d v = .error .NotANodeset := by
  cases v <;> simp_all [value_into_ordered_nodes, Value.isNodeset]

/-- Membership in the union of two nodesets. -/
lemma addNodeset_mem (l r : List Node) (nd : Node) :
    nd ∈ addNodeset l r ↔ (nd ∈ l ∨ nd ∈ r) := by
  simp [addNodeset, List.mem_filter]
  by_cases h : nd ∈ l <;> simp [h]

/-- Expressions mentioning none of `Union`, `Filter` and `Path` never
evaluate to the `NotANodeset` error, and neither do argument lists of such
expressions. -/
lemma nodesetFree_sound (ctx : Evaluation) :
    ∀ n : Nat,
      (∀ e : Expr, sizeOf e < n → nodesetFree e = true →
          evaluate ctx e ≠ .error .NotANodeset) ∧
        (∀ args : List Expr, sizeOf args < n → nodesetFreeList args = true →
          evalArgs ctx args ≠ .error .NotANodeset) := by
  intro n
  induction n with
  | zero => exact ⟨fun e hs => absurd hs (by omega), fun a hs => absurd hs (by omega)⟩
  | succ n ih =>
    obtain ⟨ihe, iha⟩ := ih
    constructor
    · intro e hsize hfree h
      cases e with
      | literal v => simp [evaluate] at h
      | contextNode => simp [evaluate] at h
      | rootNode => simp [evaluate] at h
      | union l r => simp [nodesetFree] at hfree
      | filter sel p => simp [nodesetFree] at hfree
      | path start steps => simp [nodesetFree] at hfree
      | variable_ name =>
        simp only [evaluate] at h
        repeat' split at h
        all_goals simp_all
        obtain ⟨p, hp⟩ := resolvePrefixedName_error ctx name _ (by assumption)
        simp at hp
      | and_ l r =>
        simp only [nodesetFree, Bool.and_eq_true] at hfree
        simp only [evaluate, Except.map] at h
        repeat' split at h
        all_goals simp_all
        all_goals first
          | exact ihe l (by omega) hfree.1 (by assumption)
          | exact ihe r (by omega) hfree.2 (by assumption)
      | or_ l r =>
        simp only [nodesetFree, Bool.and_eq_true] at hfree
        simp only [evaluate, Except.map] at h
        repeat' split at h
        all_goals simp_all
        all_goals first
          | exact ihe l (by omega) hfree.1 (by assumption)
          | exact ihe r (by omega) hfree.2 (by assumption)
      | equal l r =>
        simp only [nodesetFree, Bool.and_eq_true] at hfree
        simp only [evaluate] at h
        repeat' split at h
        all_goals simp_all
        all_goals first
          | exact ihe l (by omega) hfree.1 (by assumption)
          | exact ihe r (by omega) hfree.2 (by assumption)
      | notEqual l r =>
        simp only [nodesetFree, Bool.and_eq_true] at hfree
        simp only [evaluate] at h
        repeat' split at h
        all_goals simp_all
        all_goals first
          | exact ihe l (by omega) hfree.1 (by assumption)
          | exact ihe r (by omega) hfree.2 (by assumption)
      | relational op l r =>
        simp only [nodesetFree, Bool.and_eq_true] at hfree
        simp only [evaluate] at h
        repeat' split at h
        all_goals simp_all
        all_goals first
          | exact ihe l (by omega) hfree.1 (by assumption)
          | exact ihe r (by omega) hfree.2 (by assumption)
      | math op l r =>
        simp only [nodesetFree, Bool.and_eq_true] at hfree
        simp only [evaluate] at h
        repeat' split at h
        all_goals simp_all
        all_goals first
          | exact ihe l (by omega) hfree.1 (by assumption)
          | exact ihe r (by omega) hfree.2 (by assumption)
      | negation e1 =>
        simp only [nodesetFree] at hfree
        simp only [evaluate, Except.map] at h
        repeat' split at h
        all_goals simp_all
        all_goals exact ihe e1 (by omega) hfree (by assumption)
      | function name args =>
        simp only [nodesetFree] at hfree
        simp only [evaluate] at h
        repeat' split at h
        all_goals simp_all
        all_goals first
          | exact iha args (by omega) hfree (by assumption)
          | (obtain ⟨p, hp⟩ := resolvePrefixedName_error ctx name _ (by assumption);
              simp at hp)
    · intro args hsize hfree h
      cases args with
      | nil => simp [evalArgs] at h
      | cons a rest =>
        simp only [nodesetFreeList, Bool.and_eq_true] at hfree
        simp only [evalArgs] at h
        repeat' split at h
        all_goals simp_all
        all_goals first
          | exact ihe a (by omega) hfree.1 (by assumption)
          | exact iha rest (by omega) hfree.2 (by assumption)

/-- C7: `NotANodeset` is raised exactly at the operands that must be
nodesets — the `Path` start-point, the `Filter` input, and each `Union`
operand — and when both `Union` operands are nodesets the result is their set
union with no error; expressions free of those three variants can never
produce the error. -/
theorem C7_theorem (ctx : Evaluation) :
    (∀ start steps v, evaluate ctx start = .ok v → v.isNodeset = false →
        evaluate ctx (.path start steps) = .error .NotANodeset) ∧
      (∀ sel p v, evaluate ctx sel = .ok v → v.isNodeset = false →
        evaluate ctx (.filter sel p) = .error .NotANodeset) ∧
      (∀ l r v, evaluate ctx l = .ok v → v.isNodeset = false →
        evaluate ctx (.union l r) = .error .NotANodeset) ∧
      (∀ l r lns v, evaluate ctx l = .ok (.nodeset lns) → evaluate ctx r = .ok v →
        v.isNodeset = false →
        evaluate ctx (.union l r) = .error .NotANodeset) ∧
      (∀ l r lns rns, evaluate ctx l = .ok (.nodeset lns) →
        evaluate ctx r = .ok (.nodeset rns) →
        evaluate ctx (.union l r) = .ok (.nodeset (addNodeset lns rns)) ∧
          ∀ nd, nd ∈ addNodeset lns rns ↔ (nd ∈ lns ∨ nd ∈ rns)) ∧
      ∀ e, nodesetFree e = true → evaluate ctx e ≠ .error .NotANodeset := by
  refine ⟨?_, ?_, ?_, ?_, ?_, ?_⟩
  · intro start steps v hstart hkind
    simp [evaluate, hstart, value_into_nodeset_not v hkind]
  · intro sel p v hsel hkind
    simp [evaluate, hsel, value_into_ordered_nodes_not ctx.doc v hkind]
  · intro l r v hl hkind
    simp [evaluate, hl, value_into_nodeset_not v hkind]
  · intro l r lns v hl hr hkind
    have h1 : value_into_nodeset (Value.nodeset lns) = .ok lns := rfl
    simp [evaluate, hl, hr, h1, value_into_nodeset_not v hkind]
  · intro l r lns rns hl hr
    exact ⟨by simp [evaluate, hl, hr, value_into_nodeset], addNodeset_mem lns rns⟩
  · intro e hfree
    exact (nodesetFree_sound ctx (sizeOf e + 1)).1 e (by omega) hfree

/-- C7 witness: union of two literal nodesets succeeds as their set union;
union with a boolean operand fails with `NotANodeset`. -/
theorem C7_witness :
    evaluate defaultEval
        (.union (.literal (.nodeset [node1])) (.literal (.nodeset [node2]))) =
        .ok (.nodeset (addNodeset [node1] [node2])) ∧
      evaluate defaultEval (.union (.literal (.bool true)) (.literal (.nodeset [node2]))) =
        .error .NotANodeset := by
  constructor
  · exact ((C7_theorem defaultEval).2.2.2.2.1 (.literal (.nodeset [node1]))
      (.literal (.nodeset [node2])) [node1] [node2]
      (by simp [evaluate]) (by simp [evaluate])).1
  · exact (C7_theorem defaultEval).2.2.1 (.literal (.bool true))
      (.literal (.nodeset [node2])) (.bool true) (by simp [evaluate]) rfl

end SxdXpath
